import Mathlib

/-!
Verification of the metric-computation core of the SemEval 2026 Task 2
evaluation script (`eval.py`): the Pearson/MAE primitives `_pearson` and
`_mae`, and the aggregators `task1_correlation` and `task2_correlation`.

The embedding models IEEE-754 double values as exact extended reals:
`F.nan` (not-a-number), `F.inf s` (signed infinity, `s = true` meaning
positive), and `F.fin v` (a finite value, taken as an exact real, ignoring
rounding).  The numpy/scipy primitives the script calls (`np.mean`,
`np.nanmean`, `np.var`, `np.arctanh`, `np.tanh`, `np.sign`,
`scipy.stats.pearsonr`) are modelled below on this domain following their
documented semantics (current scipy: `pearsonr` raises only for fewer than
two samples; constant input yields `(nan, nan)` with a warning; two samples
yield `(sign(x1-x0)*sign(y1-y0), 1.0)`).

Python-level exceptions matter here: `task1_correlation` divides by a
possibly-zero Python float at the `p_within` line, so it is embedded as an
`Except String` computation; `ZeroDivisionError` is the only reachable
exception.  `task2_correlation` contains no raising operation and is total.
-/

open scoped Classical

namespace SemEval

/-- A floating-point value: NaN, a signed infinity (`inf true` = +inf),
or an exact finite real. -/
inductive F where
  | nan : F
  | inf : Bool → F
  | fin : ℝ → F

/-- `isNan` test, as numpy `isnan`. -/
def F.isNan : F → Bool
  | F.nan => true
  | _ => false

/-- Extract the real value of a finite float (0 on NaN/infinity);
used only to state theorems about lists known to be finite-valued. -/
def F.unfin : F → ℝ
  | F.fin v => v
  | _ => 0

/-- IEEE addition. -/
noncomputable def F.add : F → F → F
  | F.nan, _ => F.nan
  | _, F.nan => F.nan
  | F.inf s, F.inf t => if s = t then F.inf s else F.nan
  | F.inf s, F.fin _ => F.inf s
  | F.fin _, F.inf t => F.inf t
  | F.fin a, F.fin b => F.fin (a + b)

/-- IEEE subtraction. -/
noncomputable def F.sub : F → F → F
  | F.nan, _ => F.nan
  | _, F.nan => F.nan
  | F.inf s, F.inf t => if s = t then F.nan else F.inf s
  | F.inf s, F.fin _ => F.inf s
  | F.fin _, F.inf t => F.inf (!t)
  | F.fin a, F.fin b => F.fin (a - b)

/-- IEEE multiplication (`inf * 0 = nan`). -/
noncomputable def F.mul : F → F → F
  | F.nan, _ => F.nan
  | _, F.nan => F.nan
  | F.inf s, F.inf t => F.inf (s == t)
  | F.inf s, F.fin b => if b = 0 then F.nan else if 0 < b then F.inf s else F.inf (!s)
  | F.fin a, F.inf t => if a = 0 then F.nan else if 0 < a then F.inf t else F.inf (!t)
  | F.fin a, F.fin b => F.fin (a * b)

/-- IEEE absolute value. -/
noncomputable def F.abs : F → F
  | F.nan => F.nan
  | F.inf _ => F.inf true
  | F.fin a => F.fin |a|

/-- IEEE division as numpy performs it (`0/0 = nan`, `a/0 = ±inf`,
`a/inf = 0`); numpy emits warnings, never exceptions, for these. -/
noncomputable def F.npdiv : F → F → F
  | F.nan, _ => F.nan
  | _, F.nan => F.nan
  | F.inf _, F.inf _ => F.nan
  | F.inf s, F.fin b => if b < 0 then F.inf (!s) else F.inf s
  | F.fin _, F.inf _ => F.fin 0
  | F.fin a, F.fin b =>
      if b = 0 then (if a = 0 then F.nan else if a < 0 then F.inf false else F.inf true)
      else F.fin (a / b)

/-- The float `<` comparison (false on any NaN operand). -/
def F.flt : F → F → Prop
  | F.nan, _ => False
  | _, F.nan => False
  | F.inf s, F.inf t => s = false ∧ t = true
  | F.inf s, F.fin _ => s = false
  | F.fin _, F.inf t => t = true
  | F.fin a, F.fin b => a < b

/-- Python `max(a, b)`: keeps `a` unless `b > a` (so `max(nan, b) = nan`,
`max(a, nan) = a`). -/
noncomputable def F.pymax (a b : F) : F := if F.flt a b then b else a

/-- Python `min(a, b)`: keeps `a` unless `b < a`. -/
noncomputable def F.pymin (a b : F) : F := if F.flt b a then b else a

/-- scipy's clipping of the correlation coefficient,
`max(min(r, 1.0), -1.0)`. -/
noncomputable def clipF (r : F) : F := F.pymax (F.pymin r (F.fin 1)) (F.fin (-1))

/-- Sum of a list of floats starting from `0.0`
(Python `sum`, numpy `sum`). -/
noncomputable def fsum (l : List F) : F := l.foldl F.add (F.fin 0)

/-- `np.mean`: sum divided by length; on an empty list this is `0/0 = nan`
(numpy warns, returns nan). -/
noncomputable def npmean (l : List F) : F := (fsum l).npdiv (F.fin (l.length : ℝ))

/-- `np.nanmean`: mean of the non-NaN entries; `nan` (with a numpy warning,
not an exception) if there are none. -/
noncomputable def npnanmean (l : List F) : F :=
  (fsum (l.filter (fun v => !v.isNan))).npdiv
    (F.fin ((l.filter (fun v => !v.isNan)).length : ℝ))

/-- `np.var` (population variance): mean of `|x - mean x|^2`. -/
noncomputable def npvar (l : List F) : F :=
  npmean (l.map (fun v => F.mul ((v.sub (npmean l)).abs) ((v.sub (npmean l)).abs)))

/-- numpy float equality (`==`), false on NaN. -/
def feq : F → F → Prop
  | F.fin a, F.fin b => a = b
  | F.inf s, F.inf t => s = t
  | _, _ => False

/-- scipy's constant-input test `(x == x[0]).all()`; note that a leading
NaN makes this false (NaN compares unequal to itself). -/
def constantArr (l : List F) : Prop := ∀ z ∈ l, feq z (l.headD F.nan)

/-- `np.sign`. -/
noncomputable def npsign : F → F
  | F.nan => F.nan
  | F.inf s => F.fin (if s then 1 else -1)
  | F.fin a => if a < 0 then F.fin (-1) else if a = 0 then F.fin 0 else F.fin 1

/-- `np.sqrt` (nan on negative input). -/
noncomputable def fsqrt : F → F
  | F.nan => F.nan
  | F.inf s => if s then F.inf true else F.nan
  | F.fin a => if a < 0 then F.nan else F.fin (Real.sqrt a)

/-- The regularized incomplete beta function
`I_x(a, a) = (∫ t in 0..x, t^(a-1) (1-t)^(a-1)) / B(a, a)`,
used by scipy for the two-sided Pearson p-value.  Only its value at
`x = 0` (namely `0`) is ever needed by a claim. -/
noncomputable def regIncompleteBeta (a x : ℝ) : ℝ :=
  (∫ t in (0:ℝ)..x, t ^ (a - 1) * (1 - t) ^ (a - 1)) /
  (∫ t in (0:ℝ)..(1:ℝ), t ^ (a - 1) * (1 - t) ^ (a - 1))

/-- scipy's two-sided p-value for a Pearson coefficient `r` on `n` samples:
`2 * sf` of `|r|` under the beta distribution with shape `n/2 - 1` on
`[-1, 1]`, i.e. `2 * I_((1-|r|)/2)(n/2-1, n/2-1)`. -/
noncomputable def pearsonBetaP (n : ℕ) (r : ℝ) : ℝ :=
  2 * regIncompleteBeta ((n : ℝ) / 2 - 1) ((1 - |r|) / 2)

/-- `scipy.stats.pearsonr` on at least two samples (the `n < 2` case raises
in scipy and is guarded by the caller `_pearson`): constant input gives
`(nan, nan)` with a warning; exactly two samples give
`(sign(x1-x0) * sign(y1-y0), 1.0)`; otherwise the standard coefficient
`Σ xm*ym / sqrt(Σ xm² * Σ ym²)` clipped to `[-1, 1]`, with the
beta-distribution p-value. -/
noncomputable def pearsonr (x y : List F) : F × F :=
  if constantArr x ∨ constantArr y then (F.nan, F.nan)
  else if x.length = 2 then
    (F.mul (npsign ((x.getD 1 F.nan).sub (x.getD 0 F.nan)))
           (npsign ((y.getD 1 F.nan).sub (y.getD 0 F.nan))), F.fin 1)
  else
    let xm := x.map (fun v => v.sub (npmean x))
    let ym := y.map (fun v => v.sub (npmean y))
    let r := clipF ((fsum ((xm.zip ym).map (fun q => F.mul q.1 q.2))).npdiv
      (fsqrt (F.mul (fsum (xm.map (fun v => F.mul v v)))
                    (fsum (ym.map (fun v => F.mul v v))))))
    (r, match r with
        | F.fin v => F.fin (pearsonBetaP x.length v)
        | _ => F.nan)

/-- `_pearson` from `eval.py`: fewer than 2 samples gives
`(nan, None)`; otherwise defer to `scipy.stats.pearsonr`. -/
noncomputable def _pearson (x y : List F) : F × Option F :=
  if x.length < 2 then (F.nan, none)
  else ((pearsonr x y).1, some (pearsonr x y).2)

/-- `_mae` from `eval.py`: `np.nanmean(np.abs(x - y))`.  The two sequences
are equal-length by the record-loader contract (unequal lengths raise in
numpy broadcasting; `zip` truncation is only exercised on equal lengths). -/
noncomputable def _mae (x y : List F) : F :=
  npnanmean ((x.zip y).map (fun q => (q.1.sub q.2).abs))

/-- The index set of the NaN-aware mean inside `_mae`: the zipped pairs in
which neither coordinate is NaN.  Used to state what `_mae` computes. -/
noncomputable def keptPairs (x y : List F) : List (F × F) :=
  (x.zip y).filter (fun q => !q.1.isNan && !q.2.isNan)

/-- Insert into an ascending list. -/
def insertAsc (n : ℕ) : List ℕ → List ℕ
  | [] => [n]
  | m :: rest => if n ≤ m then n :: m :: rest else m :: insertAsc n rest

/-- Insertion sort, ascending. -/
def sortAsc : List ℕ → List ℕ
  | [] => []
  | n :: rest => insertAsc n (sortAsc rest)

/-- `np.unique`: the sorted list of distinct user ids. -/
def uniqueUsers (users : List ℕ) : List ℕ := sortAsc users.dedup

/-- Boolean-mask selection `vals[user_arr == u]`: the values at the
positions where the user id equals `u`, in order. -/
def maskSel (users : List ℕ) (u : ℕ) (vals : List F) : List F :=
  ((users.zip vals).filter (fun q => q.1 == u)).map (fun q => q.2)

/-- The `1e-10` p-value floor / sentinel from `eval.py`. -/
noncomputable def eps : ℝ := 1e-10

/-- One iteration of the within-person loop of `task1_correlation` on the
masked predictions and labels of one user: groups with fewer than two
observations or zero label variance contribute nothing; zero prediction
variance contributes the sentinel `(0, 1e-10)`; otherwise the `_pearson`
result is appended (its p-value is present since the size is at least 2). -/
noncomputable def groupStep (gp gl : List F) : Option (F × F) :=
  if gp.length < 2 then none
  else if npvar gl = F.fin 0 then none
  else if npvar gp = F.fin 0 then some (F.fin 0, F.fin eps)
  else some ((_pearson gp gl).1, ((_pearson gp gl).2).getD F.nan)

/-- The retained per-group `(r, p)` pairs of the within-person step,
in `np.unique` user order. -/
noncomputable def withinPairs (users : List ℕ) (preds labs : List F) : List (F × F) :=
  (uniqueUsers users).filterMap
    (fun u => groupStep (maskSel users u preds) (maskSel users u labs))

/-- Per-user NaN-aware mean predictions, one entry per distinct user. -/
noncomputable def userMeansPred (users : List ℕ) (preds : List F) : List F :=
  (uniqueUsers users).map (fun u => npnanmean (maskSel users u preds))

/-- Per-user NaN-aware mean labels, one entry per distinct user. -/
noncomputable def userMeansLab (users : List ℕ) (labs : List F) : List F :=
  (uniqueUsers users).map (fun u => npnanmean (maskSel users u labs))

/-- The per-user MAE list of `task1_correlation`: one `_mae` value per
distinct user, with no size- or variance-based exclusion. -/
noncomputable def maeList (users : List ℕ) (preds labs : List F) : List F :=
  (uniqueUsers users).map
    (fun u => _mae (maskSel users u preds) (maskSel users u labs))

/-- Python float division `a / b`: raises `ZeroDivisionError` on a zero
divisor, otherwise behaves as IEEE division. -/
noncomputable def pyDiv (a b : F) : Except String F :=
  match b with
  | F.fin s => if s = 0 then Except.error "ZeroDivisionError" else Except.ok (a.npdiv b)
  | _ => Except.ok (a.npdiv b)

/-- The `p_within` line of `task1_correlation`:
`len(p_vals) / sum(1.0 / max(pv, 1e-10) for pv in p_vals)`.
The outer division is Python `/` and raises `ZeroDivisionError` when the
sum is the float zero — in particular when no group was retained. -/
noncomputable def pWithinCalc (pvals : List F) : Except String F :=
  pyDiv (F.fin (pvals.length : ℝ))
    (fsum (pvals.map (fun p => (F.fin 1).npdiv (p.pymax (F.fin eps)))))

/-- `np.arctanh`: nan outside `[-1, 1]` and at infinities, `±inf` at `±1`,
`log((1+x)/(1-x)) / 2` inside the open interval. -/
noncomputable def arctanhF : F → F
  | F.nan => F.nan
  | F.inf _ => F.nan
  | F.fin a =>
      if a = 1 then F.inf true
      else if a = -1 then F.inf false
      else if 1 < |a| then F.nan
      else F.fin (Real.log ((1 + a) / (1 - a)) / 2)

/-- `np.tanh`: `±1` at `±inf`. -/
noncomputable def tanhF : F → F
  | F.nan => F.nan
  | F.inf s => F.fin (if s then 1 else -1)
  | F.fin a => F.fin (Real.tanh a)

/-- The flat result record of `task1_correlation`.  `p_between` comes from
`_pearson` and is `None` when there are fewer than two users. -/
structure Task1Result where
  r_within : F
  p_within : F
  r_between : F
  p_between : Option F
  r_composite : F
  mae_within : F
  mae_between : F
  mae_composite : F

/-- `task1_correlation` from `eval.py`.  The only Python-level exception it
can raise is the `ZeroDivisionError` of the `p_within` line
`len(p_vals) / sum(1.0 / max(pv, 1e-10) for pv in p_vals)` (numpy-level
degeneracies produce warnings and NaN, not exceptions), so the embedding
is an `Except` that errs exactly when that divisor is the float zero.
`text_ids` is accepted and unused, as in the source. -/
noncomputable def task1_correlation (user_ids text_ids : List ℕ)
    (predictions labels : List F) : Except String Task1Result :=
  let pairs := withinPairs user_ids predictions labels
  let r_within := npmean (pairs.map Prod.fst)
  match pWithinCalc (pairs.map Prod.snd) with
  | Except.error e => Except.error e
  | Except.ok p_within =>
    let ump := userMeansPred user_ids predictions
    let uml := userMeansLab user_ids labels
    let rb := _pearson ump uml
    let mae_within := npnanmean (maeList user_ids predictions labels)
    let mae_between := _mae ump uml
    Except.ok
      { r_within := r_within
        p_within := p_within
        r_between := rb.1
        p_between := rb.2
        r_composite :=
          tanhF ((F.fin (1/2)).mul ((arctanhF r_within).add (arctanhF rb.1)))
        mae_within := mae_within
        mae_between := mae_between
        mae_composite :=
          tanhF ((F.fin (1/2)).mul
            ((arctanhF mae_within).add (arctanhF mae_between))) }

/-- The result record of `task2_correlation`. -/
structure Task2Result where
  r : F
  p : Option F
  mae : F

/-- `task2_correlation` from `eval.py`: `_pearson` and `_mae` directly over
the full sequences; `user_ids` is accepted and unused.  No operation in it
can raise, so it is total. -/
noncomputable def task2_correlation (user_ids : Option (List ℕ))
    (predictions labels : List F) : Task2Result :=
  { r := (_pearson predictions labels).1
    p := (_pearson predictions labels).2
    mae := _mae predictions labels }

/-! ### General lemmas about the embedded functions -/

/-- If the `p_within` division succeeds, `task1_correlation` returns the
record assembled from the named components. -/
lemma task1_ok (users text : List ℕ) (preds labs : List F) (pw : F)
    (h : pWithinCalc ((withinPairs users preds labs).map Prod.snd) = Except.ok pw) :
    task1_correlation users text preds labs = Except.ok
      { r_within := npmean ((withinPairs users preds labs).map Prod.fst)
        p_within := pw
        r_between := (_pearson (userMeansPred users preds) (userMeansLab users labs)).1
        p_between := (_pearson (userMeansPred users preds) (userMeansLab users labs)).2
        r_composite := tanhF ((F.fin (1/2)).mul
          ((arctanhF (npmean ((withinPairs users preds labs).map Prod.fst))).add
           (arctanhF (_pearson (userMeansPred users preds) (userMeansLab users labs)).1)))
        mae_within := npnanmean (maeList users preds labs)
        mae_between := _mae (userMeansPred users preds) (userMeansLab users labs)
        mae_composite := tanhF ((F.fin (1/2)).mul
          ((arctanhF (npnanmean (maeList users preds labs))).add
           (arctanhF (_mae (userMeansPred users preds) (userMeansLab users labs))))) } := by
  unfold task1_correlation
  simp only [h]

/-- If the `p_within` division raises, `task1_correlation` propagates the
exception. -/
lemma task1_err (users text : List ℕ) (preds labs : List F) (e : String)
    (h : pWithinCalc ((withinPairs users preds labs).map Prod.snd) = Except.error e) :
    task1_correlation users text preds labs = Except.error e := by
  unfold task1_correlation
  simp only [h]

/-! ### Concrete evaluation: input A
`users = [0,0,1,1]`, `predictions = labels = [1,2,3,4]`.
Both user groups are perfectly correlated, so `r_within = r_between = 1`
and the Fisher composite runs `tanh` on `arctanh 1 = +inf`. -/

lemma uuA : uniqueUsers [0, 0, 1, 1] = [0, 1] := rfl

lemma maskA0 : maskSel [0, 0, 1, 1] 0 [F.fin 1, F.fin 2, F.fin 3, F.fin 4]
    = [F.fin 1, F.fin 2] := rfl

lemma maskA1 : maskSel [0, 0, 1, 1] 1 [F.fin 1, F.fin 2, F.fin 3, F.fin 4]
    = [F.fin 3, F.fin 4] := rfl

lemma npvar12 : npvar [F.fin 1, F.fin 2] = F.fin (1/4) := by
  norm_num [npvar, npmean, fsum, F.add, F.sub, F.mul, F.abs, F.npdiv]

lemma npvar34 : npvar [F.fin 3, F.fin 4] = F.fin (1/4) := by
  norm_num [npvar, npmean, fsum, F.add, F.sub, F.mul, F.abs, F.npdiv]

lemma pearson12 : _pearson [F.fin 1, F.fin 2] [F.fin 1, F.fin 2]
    = (F.fin 1, some (F.fin 1)) := by
  norm_num [_pearson, pearsonr, constantArr, feq, npsign, F.sub, F.mul]

lemma pearson34 : _pearson [F.fin 3, F.fin 4] [F.fin 3, F.fin 4]
    = (F.fin 1, some (F.fin 1)) := by
  norm_num [_pearson, pearsonr, constantArr, feq, npsign, F.sub, F.mul]

lemma groupStepA0 : groupStep [F.fin 1, F.fin 2] [F.fin 1, F.fin 2]
    = some (F.fin 1, F.fin 1) := by
  norm_num [groupStep, npvar12, pearson12]

lemma groupStepA1 : groupStep [F.fin 3, F.fin 4] [F.fin 3, F.fin 4]
    = some (F.fin 1, F.fin 1) := by
  norm_num [groupStep, npvar34, pearson34]

lemma withinPairsA :
    withinPairs [0, 0, 1, 1] [F.fin 1, F.fin 2, F.fin 3, F.fin 4]
      [F.fin 1, F.fin 2, F.fin 3, F.fin 4]
    = [(F.fin 1, F.fin 1), (F.fin 1, F.fin 1)] := by
  rw [withinPairs, uuA]
  simp only [List.filterMap]
  rw [maskA0, maskA1, groupStepA0, groupStepA1]

lemma umpA : userMeansPred [0, 0, 1, 1] [F.fin 1, F.fin 2, F.fin 3, F.fin 4]
    = [F.fin (3/2), F.fin (7/2)] := by
  rw [userMeansPred, uuA]
  simp only [List.map]
  rw [maskA0, maskA1]
  norm_num [npnanmean, fsum, F.add, F.npdiv, F.isNan, List.filter]

lemma umlA : userMeansLab [0, 0, 1, 1] [F.fin 1, F.fin 2, F.fin 3, F.fin 4]
    = [F.fin (3/2), F.fin (7/2)] := by
  rw [userMeansLab, uuA]
  simp only [List.map]
  rw [maskA0, maskA1]
  norm_num [npnanmean, fsum, F.add, F.npdiv, F.isNan, List.filter]

lemma maeZero12 : _mae [F.fin 1, F.fin 2] [F.fin 1, F.fin 2] = F.fin 0 := by
  norm_num [_mae, npnanmean, fsum, F.add, F.sub, F.abs, F.npdiv, F.isNan, List.filter]

lemma maeZero34 : _mae [F.fin 3, F.fin 4] [F.fin 3, F.fin 4] = F.fin 0 := by
  norm_num [_mae, npnanmean, fsum, F.add, F.sub, F.abs, F.npdiv, F.isNan, List.filter]

lemma maeListA :
    maeList [0, 0, 1, 1] [F.fin 1, F.fin 2, F.fin 3, F.fin 4]
      [F.fin 1, F.fin 2, F.fin 3, F.fin 4] = [F.fin 0, F.fin 0] := by
  rw [maeList, uuA]
  simp only [List.map]
  rw [maskA0, maskA1, maeZero12, maeZero34]

lemma pearsonMeansA : _pearson [F.fin (3/2), F.fin (7/2)] [F.fin (3/2), F.fin (7/2)]
    = (F.fin 1, some (F.fin 1)) := by
  norm_num [_pearson, pearsonr, constantArr, feq, npsign, F.sub, F.mul]

lemma maeMeansA : _mae [F.fin (3/2), F.fin (7/2)] [F.fin (3/2), F.fin (7/2)]
    = F.fin 0 := by
  norm_num [_mae, npnanmean, fsum, F.add, F.sub, F.abs, F.npdiv, F.isNan, List.filter]

lemma pwA : pWithinCalc ((withinPairs [0, 0, 1, 1] [F.fin 1, F.fin 2, F.fin 3, F.fin 4]
      [F.fin 1, F.fin 2, F.fin 3, F.fin 4]).map Prod.snd) = Except.ok (F.fin 1) := by
  rw [withinPairsA]
  norm_num [pWithinCalc, pyDiv, F.pymax, F.flt, eps, fsum, F.add, F.npdiv]

/-- Full evaluation of `task1_correlation` on input A.  `r_within` and
`r_between` are both `1`, and `r_composite` comes out as `1.0`
(`tanh(0.5*(inf+inf)) = 1.0`), not NaN: the guard `valid_for_arctanh`
defined in the source is never applied. -/
lemma eval_task1_A :
    task1_correlation [0, 0, 1, 1] [0, 1, 2, 3]
      [F.fin 1, F.fin 2, F.fin 3, F.fin 4] [F.fin 1, F.fin 2, F.fin 3, F.fin 4]
    = Except.ok
        { r_within := F.fin 1, p_within := F.fin 1, r_between := F.fin 1,
          p_between := some (F.fin 1), r_composite := F.fin 1,
          mae_within := F.fin 0, mae_between := F.fin 0,
          mae_composite := F.fin 0 } := by
  rw [task1_ok _ _ _ _ _ pwA, withinPairsA, umpA, umlA, pearsonMeansA, maeListA,
    maeMeansA]
  norm_num [npmean, fsum, F.add, F.npdiv, npnanmean, F.isNan, List.filter,
    arctanhF, tanhF, F.mul, Real.tanh_zero, Real.log_one]

/-! ### Concrete evaluation: input B
`users = [0,0]`, `predictions = [1,2]`, `labels = [nan, nan]`:
an all-NaN label sequence.  The group is retained (its label variance is
NaN, which compares unequal to `0.0`), the per-group `r` is NaN, and every
MAE degrades to NaN, while no exception is raised. -/

lemma uuB : uniqueUsers [0, 0] = [0] := rfl

lemma maskBp : maskSel [0, 0] 0 [F.fin 1, F.fin 2] = [F.fin 1, F.fin 2] := rfl

lemma maskBl : maskSel [0, 0] 0 [F.nan, F.nan] = [F.nan, F.nan] := rfl

lemma npvarNanNan : npvar [F.nan, F.nan] = F.nan := by
  norm_num [npvar, npmean, fsum, F.add, F.sub, F.mul, F.abs, F.npdiv]

lemma pearsonB : _pearson [F.fin 1, F.fin 2] [F.nan, F.nan]
    = (F.nan, some (F.fin 1)) := by
  norm_num [_pearson, pearsonr, constantArr, feq, npsign, F.sub, F.mul]

lemma groupStepB : groupStep [F.fin 1, F.fin 2] [F.nan, F.nan]
    = some (F.nan, F.fin 1) := by
  norm_num [groupStep, npvarNanNan, npvar12, pearsonB]
  exact fun h => F.noConfusion h

lemma withinPairsB :
    withinPairs [0, 0] [F.fin 1, F.fin 2] [F.nan, F.nan]
    = [(F.nan, F.fin 1)] := by
  rw [withinPairs, uuB]
  simp only [List.filterMap]
  rw [maskBp, maskBl, groupStepB]

lemma pwB : pWithinCalc ((withinPairs [0, 0] [F.fin 1, F.fin 2]
      [F.nan, F.nan]).map Prod.snd) = Except.ok (F.fin 1) := by
  rw [withinPairsB]
  norm_num [pWithinCalc, pyDiv, F.pymax, F.flt, eps, fsum, F.add, F.npdiv]

lemma umpB : userMeansPred [0, 0] [F.fin 1, F.fin 2] = [F.fin (3/2)] := by
  rw [userMeansPred, uuB]
  simp only [List.map]
  rw [maskBp]
  norm_num [npnanmean, fsum, F.add, F.npdiv, F.isNan, List.filter]

lemma umlB : userMeansLab [0, 0] [F.nan, F.nan] = [F.nan] := by
  rw [userMeansLab, uuB]
  simp only [List.map]
  rw [maskBl]
  norm_num [npnanmean, fsum, F.add, F.npdiv, F.isNan, List.filter]

lemma pearsonMeansB : _pearson [F.fin (3/2)] [F.nan] = (F.nan, none) := by
  norm_num [_pearson]

lemma maeB : _mae [F.fin 1, F.fin 2] [F.nan, F.nan] = F.nan := by
  norm_num [_mae, npnanmean, fsum, F.add, F.sub, F.abs, F.npdiv, F.isNan, List.filter]

lemma maeListB : maeList [0, 0] [F.fin 1, F.fin 2] [F.nan, F.nan] = [F.nan] := by
  rw [maeList, uuB]
  simp only [List.map]
  rw [maskBp, maskBl, maeB]

lemma maeMeansB : _mae [F.fin (3/2)] [F.nan] = F.nan := by
  norm_num [_mae, npnanmean, fsum, F.add, F.sub, F.abs, F.npdiv, F.isNan, List.filter]

/-- Full evaluation of `task1_correlation` on input B: the record is
returned (no exception) and every MAE field is NaN. -/
lemma eval_task1_B :
    task1_correlation [0, 0] [0, 1] [F.fin 1, F.fin 2] [F.nan, F.nan]
    = Except.ok
        { r_within := F.nan, p_within := F.fin 1, r_between := F.nan,
          p_between := none, r_composite := F.nan,
          mae_within := F.nan, mae_between := F.nan,
          mae_composite := F.nan } := by
  rw [task1_ok _ _ _ _ _ pwB, withinPairsB, umpB, umlB, pearsonMeansB, maeListB,
    maeMeansB]
  norm_num [npmean, fsum, F.add, F.npdiv, npnanmean, F.isNan, List.filter,
    arctanhF, tanhF, F.mul]

/-! ### Concrete evaluation: input C
`users = [0,0]`, `predictions = [1,2]`, `labels = [5,5]`: the only group
has zero label variance, so it is skipped and no group is retained; the
`p_within` line then divides zero by zero in Python and raises
`ZeroDivisionError`. -/

lemma maskCl : maskSel [0, 0] 0 [F.fin 5, F.fin 5] = [F.fin 5, F.fin 5] := rfl

lemma npvar55 : npvar [F.fin 5, F.fin 5] = F.fin 0 := by
  norm_num [npvar, npmean, fsum, F.add, F.sub, F.mul, F.abs, F.npdiv]

lemma groupStepC : groupStep [F.fin 1, F.fin 2] [F.fin 5, F.fin 5] = none := by
  norm_num [groupStep, npvar55]

lemma withinPairsC :
    withinPairs [0, 0] [F.fin 1, F.fin 2] [F.fin 5, F.fin 5] = [] := by
  rw [withinPairs, uuB]
  simp only [List.filterMap]
  rw [maskBp, maskCl, groupStepC]

lemma pwC : pWithinCalc ((withinPairs [0, 0] [F.fin 1, F.fin 2]
      [F.fin 5, F.fin 5]).map Prod.snd) = Except.error "ZeroDivisionError" := by
  rw [withinPairsC]
  norm_num [pWithinCalc, pyDiv, fsum]

/-- Full evaluation of `task1_correlation` on input C: the call raises. -/
lemma eval_task1_C :
    task1_correlation [0, 0] [0, 1] [F.fin 1, F.fin 2] [F.fin 5, F.fin 5]
    = Except.error "ZeroDivisionError" :=
  task1_err _ _ _ _ _ pwC

/-! ### Helper lemmas for grouping and membership -/

lemma maskSel_length_le (users : List ℕ) (u : ℕ) (vals : List F) :
    (maskSel users u vals).length ≤ users.count u := by
  induction users generalizing vals with
  | nil => simp [maskSel]
  | cons a us ih =>
    cases vals with
    | nil => simp [maskSel]
    | cons v vs =>
      have h := ih vs
      simp only [maskSel, List.zip_cons_cons, List.filter_cons, List.count_cons,
        List.length_map, beq_iff_eq] at h ⊢
      by_cases hau : a = u
      · simp only [hau, if_true, List.length_cons]
        omega
      · simp only [hau, if_false]
        omega

lemma groupStep_of_count_one (users : List ℕ) (u : ℕ) (preds labs : List F)
    (h : users.count u = 1) :
    groupStep (maskSel users u preds) (maskSel users u labs) = none := by
  have hl := maskSel_length_le users u preds
  unfold groupStep
  rw [if_pos (by omega)]

lemma mem_insertAsc {a n : ℕ} {l : List ℕ} : a ∈ insertAsc n l ↔ a = n ∨ a ∈ l := by
  induction l with
  | nil => simp [insertAsc]
  | cons m rest ih =>
    simp only [insertAsc]
    by_cases h : n ≤ m
    · simp [h]
    · simp [h, ih]
      tauto

lemma mem_sortAsc {a : ℕ} {l : List ℕ} : a ∈ sortAsc l ↔ a ∈ l := by
  induction l with
  | nil => simp [sortAsc]
  | cons n rest ih => simp [sortAsc, mem_insertAsc, ih]

lemma mem_uniqueUsers {u : ℕ} {users : List ℕ} (h : u ∈ users) :
    u ∈ uniqueUsers users := by
  simpa [uniqueUsers, mem_sortAsc, List.mem_dedup] using h

lemma filterMap_erase_of_none {α β : Type} [DecidableEq α] (f : α → Option β)
    (l : List α) (u : α) (hf : f u = none) :
    l.filterMap f = (l.erase u).filterMap f := by
  induction l with
  | nil => rfl
  | cons a rest ih =>
    by_cases hau : a = u
    · subst hau
      rw [List.erase_cons_head, List.filterMap_cons, hf]
    · have he : (a :: rest).erase u = a :: rest.erase u :=
        List.erase_cons_tail (by simpa using hau)
      rw [he, List.filterMap_cons, List.filterMap_cons, ih]


/-! ### Helper lemmas for the MAE primitive -/

lemma F.sub_nan (a : F) : F.sub a F.nan = F.nan := by cases a <;> rfl

lemma absSub_nan_left (b : F) : ((F.nan).sub b).abs = F.nan := by cases b <;> rfl

lemma absSub_nan_right (a : F) : (a.sub F.nan).abs = F.nan := by
  rw [F.sub_nan]; rfl

lemma absSub_fin (a b : ℝ) : ((F.fin a).sub (F.fin b)).abs = F.fin |a - b| := rfl

lemma F.unfin_fin (a : ℝ) : F.unfin (F.fin a) = a := rfl

lemma F.isNan_nan : F.isNan F.nan = true := rfl

lemma F.isNan_fin (a : ℝ) : F.isNan (F.fin a) = false := rfl

lemma mae_kept_corr (x : List F) : ∀ (y : List F),
    (∀ v ∈ x, v = F.nan ∨ ∃ a, v = F.fin a) →
    (∀ v ∈ y, v = F.nan ∨ ∃ a, v = F.fin a) →
    ((x.zip y).map (fun q => (q.1.sub q.2).abs)).filter (fun v => !v.isNan)
    = ((x.zip y).filter (fun q => !q.1.isNan && !q.2.isNan)).map
        (fun q => F.fin |F.unfin q.1 - F.unfin q.2|) := by
  induction x with
  | nil => intro y _ _; simp
  | cons a xs ih =>
    intro y hx hy
    cases y with
    | nil => simp
    | cons b ys =>
      have ha := hx a (by simp)
      have hb := hy b (by simp)
      have hxs : ∀ v ∈ xs, v = F.nan ∨ ∃ c, v = F.fin c :=
        fun v hv => hx v (by simp [hv])
      have hys : ∀ v ∈ ys, v = F.nan ∨ ∃ c, v = F.fin c :=
        fun v hv => hy v (by simp [hv])
      rcases ha with rfl | ⟨va, rfl⟩ <;> rcases hb with rfl | ⟨vb, rfl⟩ <;>
        simp [List.zip_cons_cons, List.map_cons, List.filter_cons,
          absSub_nan_left, absSub_nan_right, absSub_fin, F.unfin_fin,
          F.isNan_nan, F.isNan_fin, ih ys hxs hys]


lemma fsum_map_fin {α : Type} (f : α → ℝ) (l : List α) :
    fsum (l.map (fun a => F.fin (f a))) = F.fin ((l.map f).sum) := by
  have key : ∀ (m : List α) (acc : ℝ),
      List.foldl F.add (F.fin acc) (m.map (fun a => F.fin (f a)))
      = F.fin (acc + (m.map f).sum) := by
    intro m
    induction m with
    | nil => intro acc; simp
    | cons a rest ih => intro acc; simp [F.add, ih, add_assoc]
  simpa [fsum] using key l 0

lemma mae_eq_of_no_inf (x y : List F)
    (hx : ∀ v ∈ x, v = F.nan ∨ ∃ a, v = F.fin a)
    (hy : ∀ v ∈ y, v = F.nan ∨ ∃ a, v = F.fin a) :
    (keptPairs x y = [] → _mae x y = F.nan) ∧
    (keptPairs x y ≠ [] → _mae x y =
      F.fin (((keptPairs x y).map (fun q => |F.unfin q.1 - F.unfin q.2|)).sum /
             ((keptPairs x y).length : ℝ))) := by
  have key := mae_kept_corr x y hx hy
  rw [show ((x.zip y).filter (fun q => !q.1.isNan && !q.2.isNan))
      = keptPairs x y from rfl] at key
  constructor
  · intro h
    unfold _mae npnanmean
    rw [key, h]
    norm_num [fsum, F.npdiv]
  · intro h
    unfold _mae npnanmean
    rw [key, fsum_map_fin]
    have hn : ((keptPairs x y).length : ℝ) ≠ 0 := by
      simpa using fun hh => h (List.length_eq_zero.mp hh)
    simp [F.npdiv, hn]

lemma mem_maskSel {users : List ℕ} {u : ℕ} {vals : List F} {v : F}
    (h : v ∈ maskSel users u vals) : v ∈ vals := by
  simp only [maskSel, List.mem_map, List.mem_filter] at h
  obtain ⟨⟨q1, q2⟩, ⟨hq, _⟩, rfl⟩ := h
  exact (List.of_mem_zip hq).2

lemma filter_nonan_nil (l : List F) (h : ∀ v ∈ l, v = F.nan) :
    l.filter (fun v => !v.isNan) = [] := by
  rw [List.filter_eq_nil_iff]
  intro a ha
  rw [h a ha]
  simp [F.isNan_nan]

lemma npnanmean_all_nan (l : List F) (h : ∀ v ∈ l, v = F.nan) :
    npnanmean l = F.nan := by
  unfold npnanmean
  rw [filter_nonan_nil l h]
  norm_num [fsum, F.npdiv]

lemma mae_all_nan_labels (gp gl : List F) (h : ∀ v ∈ gl, v = F.nan) :
    _mae gp gl = F.nan := by
  unfold _mae
  apply npnanmean_all_nan
  intro v hv
  simp only [List.mem_map] at hv
  obtain ⟨⟨q1, q2⟩, hq, rfl⟩ := hv
  have h2 : q2 ∈ gl := (List.of_mem_zip hq).2
  rw [h q2 h2, F.sub_nan]
  rfl

lemma maeList_all_nan (users : List ℕ) (preds labs : List F)
    (h : ∀ v ∈ labs, v = F.nan) :
    ∀ v ∈ maeList users preds labs, v = F.nan := by
  intro v hv
  simp only [maeList, List.mem_map] at hv
  obtain ⟨u, _, rfl⟩ := hv
  exact mae_all_nan_labels _ _ (fun w hw => h w (mem_maskSel hw))

lemma task1_ok_inv (users text : List ℕ) (preds labs : List F) (res : Task1Result)
    (h : task1_correlation users text preds labs = Except.ok res) :
    ∃ pw, pWithinCalc ((withinPairs users preds labs).map Prod.snd) = Except.ok pw ∧
      res = { r_within := npmean ((withinPairs users preds labs).map Prod.fst)
              p_within := pw
              r_between := (_pearson (userMeansPred users preds) (userMeansLab users labs)).1
              p_between := (_pearson (userMeansPred users preds) (userMeansLab users labs)).2
              r_composite := tanhF ((F.fin (1/2)).mul
                ((arctanhF (npmean ((withinPairs users preds labs).map Prod.fst))).add
                 (arctanhF (_pearson (userMeansPred users preds) (userMeansLab users labs)).1)))
              mae_within := npnanmean (maeList users preds labs)
              mae_between := _mae (userMeansPred users preds) (userMeansLab users labs)
              mae_composite := tanhF ((F.fin (1/2)).mul
                ((arctanhF (npnanmean (maeList users preds labs))).add
                 (arctanhF (_mae (userMeansPred users preds) (userMeansLab users labs))))) } := by
  cases hpc : pWithinCalc ((withinPairs users preds labs).map Prod.snd) with
  | error e =>
    rw [task1_err users text preds labs e hpc] at h
    exact absurd h (by simp)
  | ok pw =>
    refine ⟨pw, rfl, ?_⟩
    rw [task1_ok users text preds labs pw hpc] at h
    injection h with h2
    exact h2.symm



lemma abs_sub_comm_F (a b : F) : (a.sub b).abs = (b.sub a).abs := by
  cases a with
  | nan => cases b <;> rfl
  | inf s =>
    cases b with
    | nan => rfl
    | inf t => by_cases h : s = t <;> simp [F.sub, F.abs, h, eq_comm]
    | fin c => rfl
  | fin c =>
    cases b with
    | nan => rfl
    | inf t => rfl
    | fin d => simp [F.sub, F.abs, abs_sub_comm]

lemma mae_comm (x : List F) : ∀ (y : List F), _mae x y = _mae y x := by
  unfold _mae
  intro y
  congr 1
  induction x generalizing y with
  | nil => cases y <;> rfl
  | cons a xs ih =>
    cases y with
    | nil => rfl
    | cons b ys =>
      simp only [List.zip_cons_cons, List.map_cons, abs_sub_comm_F a b, ih]

lemma zip_self_map_abs (x : List F) (hx : ∀ v ∈ x, ∃ a, v = F.fin a) :
    (x.zip x).map (fun q => (q.1.sub q.2).abs) = List.replicate x.length (F.fin 0) := by
  induction x with
  | nil => rfl
  | cons v vs ih =>
    obtain ⟨a, rfl⟩ := hx v (by simp)
    have h2 : ∀ w ∈ vs, ∃ c, w = F.fin c := fun w hw => hx w (by simp [hw])
    simp [List.zip_cons_cons, List.map_cons, List.replicate_succ, absSub_fin,
      ih h2]

lemma fsum_replicate_zero (n : ℕ) :
    fsum (List.replicate n (F.fin 0)) = F.fin 0 := by
  have key : ∀ (m : ℕ) (acc : ℝ),
      List.foldl F.add (F.fin acc) (List.replicate m (F.fin 0)) = F.fin acc := by
    intro m
    induction m with
    | zero => intro acc; rfl
    | succ k ih => intro acc; simp [List.replicate_succ, F.add, ih]
  simpa [fsum] using key n 0

lemma npnanmean_replicate_zero (n : ℕ) (h : n ≠ 0) :
    npnanmean (List.replicate n (F.fin 0)) = F.fin 0 := by
  unfold npnanmean
  have hf : (List.replicate n (F.fin 0)).filter (fun v => !v.isNan)
      = List.replicate n (F.fin 0) := by
    rw [List.filter_eq_self]
    intro a ha
    rw [List.eq_of_mem_replicate ha]
    rfl
  rw [hf, fsum_replicate_zero]
  have hn : ((n : ℝ)) ≠ 0 := Nat.cast_ne_zero.mpr h
  simp [F.npdiv, List.length_replicate, hn]

lemma mae_self_fin (x : List F) (hne : x ≠ []) (hx : ∀ v ∈ x, ∃ a, v = F.fin a) :
    _mae x x = F.fin 0 := by
  unfold _mae
  rw [zip_self_map_abs x hx]
  exact npnanmean_replicate_zero x.length
    (fun hh => hne (List.length_eq_zero.mp hh))


/-! ### Claim theorems -/

lemma sqrt_four : Real.sqrt 4 = 2 := by
  rw [show (4:ℝ) = 2 ^ 2 by norm_num, Real.sqrt_sq (by norm_num)]

lemma regIncompleteBeta_zero (a : ℝ) : regIncompleteBeta a 0 = 0 := by
  simp [regIncompleteBeta]

lemma pearsonBetaP_one (n : ℕ) : pearsonBetaP n 1 = 0 := by
  norm_num [pearsonBetaP, regIncompleteBeta_zero]

lemma pearson123 : _pearson [F.fin 1, F.fin 2, F.fin 3] [F.fin 1, F.fin 2, F.fin 3]
    = (F.fin 1, some (F.fin 0)) := by
  norm_num [_pearson, pearsonr, constantArr, feq, npmean, fsum, F.add, F.npdiv,
    F.sub, F.mul, clipF, F.pymax, F.pymin, F.flt, fsqrt, sqrt_four, pearsonBetaP_one]

lemma mae123 : _mae [F.fin 1, F.fin 2, F.fin 3] [F.fin 1, F.fin 2, F.fin 3]
    = F.fin 0 := by
  norm_num [_mae, npnanmean, fsum, F.add, F.sub, F.abs, F.npdiv, F.isNan,
    List.filter]

/-- C1 (code bug evidence): on `users = [0,0,1,1]`,
`predictions = labels = [1,2,3,4]`, `r_within` and `r_between` are both `1`
(absolute value ≥ 1), yet `r_composite` is `1.0`, not NaN: the code feeds
`arctanh(1.0) = +inf` into `tanh` and never applies its own
`valid_for_arctanh` guard, contradicting the specified NaN propagation. -/
theorem composite_unit_correlation_not_nan :
    (task1_correlation [0, 0, 1, 1] [0, 1, 2, 3]
      [F.fin 1, F.fin 2, F.fin 3, F.fin 4] [F.fin 1, F.fin 2, F.fin 3, F.fin 4]).map
      (fun r => (r.r_within, r.r_between, r.r_composite))
    = Except.ok (F.fin 1, F.fin 1, F.fin 1) := by
  rw [eval_task1_A]
  rfl

/-- C2 (code bug evidence): when no user group is retained (here the only
group has zero label variance), the `p_within` line divides `0` by `0` in
Python and `task1_correlation` raises `ZeroDivisionError` instead of
returning the record with `r_within = NaN`. -/
theorem no_retained_group_raises :
    task1_correlation [0, 0] [0, 1] [F.fin 1, F.fin 2] [F.fin 5, F.fin 5]
    = Except.error "ZeroDivisionError" :=
  eval_task1_C

/-- C3: for a user group with at least two observations, zero label
variance excludes the group entirely from the retained `(r, p)` pairs,
while zero prediction variance (with non-zero label variance) contributes
exactly `r = 0`, `p = 1e-10`. -/
theorem within_group_variance_policy (gp gl : List F) (h2 : 2 ≤ gp.length) :
    (npvar gl = F.fin 0 → groupStep gp gl = none) ∧
    (npvar gl ≠ F.fin 0 → npvar gp = F.fin 0 →
      groupStep gp gl = some (F.fin 0, F.fin eps)) := by
  constructor
  · intro hv
    unfold groupStep
    rw [if_neg (by omega), if_pos hv]
  · intro hv hp
    unfold groupStep
    rw [if_neg (by omega), if_neg hv, if_pos hp]

/-- Witness for C3 at concrete groups. -/
theorem within_group_variance_policy_check :
    groupStep [F.fin 1, F.fin 2] [F.fin 3, F.fin 3] = none ∧
    groupStep [F.fin 5, F.fin 5] [F.fin 1, F.fin 2] = some (F.fin 0, F.fin eps) := by
  constructor
  · exact (within_group_variance_policy [F.fin 1, F.fin 2] [F.fin 3, F.fin 3]
      (by norm_num)).1
      (by norm_num [npvar, npmean, fsum, F.add, F.sub, F.mul, F.abs, F.npdiv])
  · exact (within_group_variance_policy [F.fin 5, F.fin 5] [F.fin 1, F.fin 2]
      (by norm_num)).2
      (by rw [npvar12]; simp)
      (by norm_num [npvar, npmean, fsum, F.add, F.sub, F.mul, F.abs, F.npdiv])

/-- C4: `_pearson` returns `(NaN, None)` on fewer than two samples, and on
constant input it returns the value pair `(NaN, NaN)` rather than raising. -/
theorem pearson_short_or_constant (x y : List F) :
    (x.length < 2 → _pearson x y = (F.nan, none)) ∧
    (2 ≤ x.length → constantArr x ∨ constantArr y →
      _pearson x y = (F.nan, some F.nan)) := by
  constructor
  · intro h
    unfold _pearson
    rw [if_pos h]
  · intro h hc
    unfold _pearson
    rw [if_neg (by omega)]
    unfold pearsonr
    rw [if_pos hc]

/-- Witness for C4 at concrete inputs. -/
theorem pearson_short_or_constant_check :
    _pearson [F.fin 1] [F.fin 2] = (F.nan, none) ∧
    _pearson [F.fin 2, F.fin 2] [F.fin 1, F.fin 3] = (F.nan, some F.nan) := by
  constructor
  · exact (pearson_short_or_constant [F.fin 1] [F.fin 2]).1 (by norm_num)
  · exact (pearson_short_or_constant [F.fin 2, F.fin 2] [F.fin 1, F.fin 3]).2
      (by norm_num) (Or.inl (by norm_num [constantArr, feq]))

/-- C5: a user occurring exactly once is excluded from the within-person
`(r, p)` list — even from its count, since the list equals the one computed
with that user erased — but its per-user MAE is a member of the
`mae_within` averaging list, which has one entry per distinct user. -/
theorem singleton_group_within_vs_mae (users : List ℕ) (preds labs : List F)
    (u : ℕ) (h : users.count u = 1) :
    groupStep (maskSel users u preds) (maskSel users u labs) = none ∧
    withinPairs users preds labs
      = ((uniqueUsers users).erase u).filterMap
          (fun v => groupStep (maskSel users v preds) (maskSel users v labs)) ∧
    _mae (maskSel users u preds) (maskSel users u labs) ∈ maeList users preds labs ∧
    (maeList users preds labs).length = (uniqueUsers users).length := by
  have hnone := groupStep_of_count_one users u preds labs h
  refine ⟨hnone, ?_, ?_, ?_⟩
  · unfold withinPairs
    exact filterMap_erase_of_none _ _ u hnone
  · have hu : u ∈ users := List.count_pos_iff.mp (by omega)
    unfold maeList
    exact List.mem_map_of_mem _ (mem_uniqueUsers hu)
  · simp [maeList]

/-- Witness for C5 at a concrete input with a singleton user. -/
theorem singleton_group_within_vs_mae_check :
    groupStep (maskSel [0, 1, 1] 0 [F.fin 1, F.fin 2, F.fin 3])
        (maskSel [0, 1, 1] 0 [F.fin 4, F.fin 5, F.fin 6]) = none ∧
    _mae (maskSel [0, 1, 1] 0 [F.fin 1, F.fin 2, F.fin 3])
        (maskSel [0, 1, 1] 0 [F.fin 4, F.fin 5, F.fin 6])
      ∈ maeList [0, 1, 1] [F.fin 1, F.fin 2, F.fin 3] [F.fin 4, F.fin 5, F.fin 6] :=
  have hh := singleton_group_within_vs_mae [0, 1, 1] [F.fin 1, F.fin 2, F.fin 3]
    [F.fin 4, F.fin 5, F.fin 6] 0 (by decide)
  ⟨hh.1, hh.2.2.1⟩

/-- C6: whenever `task1_correlation` returns a record, its between-person
fields are the `_pearson` pair and the `_mae` value over the per-user
NaN-aware mean sequences, which have one entry per distinct user
(regardless of group size). -/
theorem between_from_user_means (users text : List ℕ) (preds labs : List F)
    (res : Task1Result)
    (h : task1_correlation users text preds labs = Except.ok res) :
    res.r_between = (_pearson (userMeansPred users preds) (userMeansLab users labs)).1 ∧
    res.p_between = (_pearson (userMeansPred users preds) (userMeansLab users labs)).2 ∧
    res.mae_between = _mae (userMeansPred users preds) (userMeansLab users labs) ∧
    (userMeansPred users preds).length = (uniqueUsers users).length ∧
    (userMeansLab users labs).length = (uniqueUsers users).length := by
  obtain ⟨pw, _, rfl⟩ := task1_ok_inv users text preds labs res h
  exact ⟨rfl, rfl, rfl, by simp [userMeansPred], by simp [userMeansLab]⟩

/-- Witness for C6 via the concrete evaluation on input A. -/
theorem between_from_user_means_check :
    (F.fin 1 : F)
      = (_pearson (userMeansPred [0, 0, 1, 1] [F.fin 1, F.fin 2, F.fin 3, F.fin 4])
                  (userMeansLab [0, 0, 1, 1] [F.fin 1, F.fin 2, F.fin 3, F.fin 4])).1 :=
  (between_from_user_means [0, 0, 1, 1] [0, 1, 2, 3]
    [F.fin 1, F.fin 2, F.fin 3, F.fin 4] [F.fin 1, F.fin 2, F.fin 3, F.fin 4]
    _ eval_task1_A).1



/-- C7: `_mae` is the NaN-aware mean of `|x_i - y_i|` — NaN when no pair of
non-NaN values remains, and otherwise the arithmetic mean of the absolute
differences over the kept pairs; consequently, when every label is NaN,
every per-user MAE is NaN and the `mae_within` field of any returned
`task1_correlation` record is NaN. -/
theorem mae_nan_aware_props :
    (∀ x y : List F,
      (∀ v ∈ x, v = F.nan ∨ ∃ a, v = F.fin a) →
      (∀ v ∈ y, v = F.nan ∨ ∃ a, v = F.fin a) →
      ((keptPairs x y = [] → _mae x y = F.nan) ∧
       (keptPairs x y ≠ [] → _mae x y =
         F.fin (((keptPairs x y).map (fun q => |F.unfin q.1 - F.unfin q.2|)).sum /
                ((keptPairs x y).length : ℝ))))) ∧
    (∀ (users text : List ℕ) (preds labs : List F),
      (∀ v ∈ labs, v = F.nan) →
      (∀ u : ℕ, _mae (maskSel users u preds) (maskSel users u labs) = F.nan) ∧
      ∀ res : Task1Result,
        task1_correlation users text preds labs = Except.ok res →
        res.mae_within = F.nan) := by
  constructor
  · intro x y hx hy
    exact mae_eq_of_no_inf x y hx hy
  · intro users text preds labs hl
    constructor
    · intro u
      exact mae_all_nan_labels _ _ (fun w hw => hl w (mem_maskSel hw))
    · intro res h
      obtain ⟨pw, _, rfl⟩ := task1_ok_inv users text preds labs res h
      exact npnanmean_all_nan _ (maeList_all_nan users preds labs hl)

/-- Witness for C7: a concrete mixed NaN/finite MAE, and input B
(`labels = [nan, nan]`) through `task1_correlation`. -/
theorem mae_nan_aware_props_check :
    _mae [F.fin 1, F.nan] [F.fin 3, F.fin 4] = F.fin 2 ∧
    _mae (maskSel [0, 0] 5 [F.fin 1, F.fin 2]) (maskSel [0, 0] 5 [F.nan, F.nan])
      = F.nan ∧
    ({ r_within := F.nan, p_within := F.fin 1, r_between := F.nan,
       p_between := none, r_composite := F.nan, mae_within := F.nan,
       mae_between := F.nan, mae_composite := F.nan } : Task1Result).mae_within
      = F.nan := by
  have hkept : keptPairs [F.fin 1, F.nan] [F.fin 3, F.fin 4]
      = [(F.fin 1, F.fin 3)] := by
    norm_num [keptPairs, List.filter, F.isNan]
  have hx : ∀ v ∈ [F.fin 1, F.nan], v = F.nan ∨ ∃ a, v = F.fin a := by
    intro v hv
    simp only [List.mem_cons, List.not_mem_nil, or_false] at hv
    rcases hv with rfl | rfl
    · exact Or.inr ⟨1, rfl⟩
    · exact Or.inl rfl
  have hy : ∀ v ∈ [F.fin 3, F.fin 4], v = F.nan ∨ ∃ a, v = F.fin a := by
    intro v hv
    simp only [List.mem_cons, List.not_mem_nil, or_false] at hv
    rcases hv with rfl | rfl
    · exact Or.inr ⟨3, rfl⟩
    · exact Or.inr ⟨4, rfl⟩
  refine ⟨?_, ?_, ?_⟩
  · rw [(mae_nan_aware_props.1 [F.fin 1, F.nan] [F.fin 3, F.fin 4] hx hy).2
      (by rw [hkept]; simp), hkept]
    norm_num [F.unfin]
  · exact ((mae_nan_aware_props.2 [0, 0] [0, 1] [F.fin 1, F.fin 2] [F.nan, F.nan]
      (by intro v hv; simp only [List.mem_cons, List.not_mem_nil, or_false] at hv; rcases hv with rfl | rfl <;> rfl)).1) 5
  · exact (mae_nan_aware_props.2 [0, 0] [0, 1] [F.fin 1, F.fin 2] [F.nan, F.nan]
      (by intro v hv; simp only [List.mem_cons, List.not_mem_nil, or_false] at hv; rcases hv with rfl | rfl <;> rfl)).2 _ eval_task1_B

/-- C8: `task2_correlation` is exactly `_pearson` and `_mae` over the full
sequences (no within/between split), and on `predictions = labels =
[1, 2, 3]` it returns `r = 1.0`, `p = 0.0` and `mae = 0.0`. -/
theorem task2_direct_metrics :
    (∀ (uids : Option (List ℕ)) (p l : List F),
      task2_correlation uids p l
        = { r := (_pearson p l).1, p := (_pearson p l).2, mae := _mae p l }) ∧
    task2_correlation none [F.fin 1, F.fin 2, F.fin 3] [F.fin 1, F.fin 2, F.fin 3]
      = { r := F.fin 1, p := some (F.fin 0), mae := F.fin 0 } := by
  refine ⟨fun uids p l => rfl, ?_⟩
  simp [task2_correlation, pearson123, mae123]

/-- C9 counterexample: `MAE(x, x) = 0` fails as a universal statement — on
the empty sequence (likewise on an all-NaN one) `_mae x x` is NaN, and NaN
is not `0`. -/
theorem mae_self_empty_counterexample :
    _mae ([] : List F) [] = F.nan ∧ F.nan ≠ F.fin 0 := by
  constructor
  · norm_num [_mae, npnanmean, fsum, F.npdiv]
  · exact fun h => F.noConfusion h

/-- C9 (amended): `MAE` is symmetric on equal-length sequences, and
`MAE(x, x) = 0` for every nonempty sequence of finite (non-NaN,
non-infinite) values. -/
theorem mae_symm_and_self :
    (∀ x y : List F, x.length = y.length → _mae x y = _mae y x) ∧
    (∀ x : List F, x ≠ [] → (∀ v ∈ x, ∃ a, v = F.fin a) → _mae x x = F.fin 0) :=
  ⟨fun x y _ => mae_comm x y, fun x h1 h2 => mae_self_fin x h1 h2⟩

/-- Witness for C9 at concrete sequences. -/
theorem mae_symm_and_self_check :
    _mae [F.fin 1, F.fin 5] [F.fin 2, F.fin 7]
      = _mae [F.fin 2, F.fin 7] [F.fin 1, F.fin 5] ∧
    _mae [F.fin 3] [F.fin 3] = F.fin 0 := by
  constructor
  · exact mae_symm_and_self.1 [F.fin 1, F.fin 5] [F.fin 2, F.fin 7] rfl
  · exact mae_symm_and_self.2 [F.fin 3] (by simp)
      (by intro v hv; simp only [List.mem_singleton] at hv; exact ⟨3, hv⟩)

/-- C10: on empty inputs `task2_correlation` returns
`{r = NaN, p = None, mae = NaN}` (and, being a total function of its
inputs in this embedding, raises nothing: `_pearson` short-circuits at
fewer than two samples and `np.nanmean` of an empty slice is NaN with only
a warning). -/
theorem task2_empty_inputs :
    task2_correlation none [] [] = { r := F.nan, p := none, mae := F.nan } := by
  norm_num [task2_correlation, _pearson, _mae, npnanmean, fsum, F.npdiv]


end SemEval
